import Mathlib

/-!
Verification of the caching subsystem of the property-listing backend.

The data model and operations are shallowly embedded from
`properties/models.py`, `properties/utils.py` and `properties/signals.py`:
cache-aside reads (`get_all_properties`, `get_property_stats`,
`get_properties_by_location`), signal-driven invalidation
(`invalidate_property_cache_on_save`, `invalidate_property_cache_on_delete`,
`invalidate_all_property_caches`) and cache metrics
(`get_redis_cache_metrics`).

The cache is a key-value table with per-key TTL plus an availability flag
for the backing Redis server; the store is the list of `Property` rows.
Decimal prices are embedded as rationals, timestamps as naturals.
-/

namespace PropertyListings

/-- A property row (`properties/models.py`, class `Property`): title,
description, price (`DecimalField`, embedded as `ℚ`), location, and the
store-assigned id and `created_at` timestamp. -/
structure Property where
  id : Nat
  title : String
  description : String
  price : ℚ
  location : String
  created_at : Nat
  deriving DecidableEq, Repr

/-- The aggregate record built by `get_property_stats` (`utils.py`). -/
structure PropertyStats where
  total_properties : Nat
  avg_price : ℚ
  max_price : ℚ
  min_price : ℚ
  deriving DecidableEq, Repr

/-- A value held by a cache entry: a materialized property list or a stats
record (the two shapes the code ever stores). -/
inductive CacheValue where
  | props (ps : List Property)
  | stats (s : PropertyStats)
  deriving DecidableEq, Repr

/-- The cache: an association from string keys to (value, ttl-seconds)
pairs, plus an availability flag for the backing Redis server. -/
structure CacheState where
  entries : List (String × (CacheValue × Nat))
  available : Bool
  deriving DecidableEq, Repr

/-- The backing store: the `Property` rows, in insertion order. -/
structure Store where
  props : List Property
  deriving DecidableEq, Repr

/-- Key lookup in the cache's table (first binding wins). -/
def lookupKey : List (String × (CacheValue × Nat)) → String → Option (CacheValue × Nat)
  | [], _ => none
  | e :: l, k => if e.1 = k then some e.2 else lookupKey l k

/-- Remove every binding of a key from the cache's table. -/
def removeKey : List (String × (CacheValue × Nat)) → String → List (String × (CacheValue × Nat))
  | [], _ => []
  | e :: l, k => if e.1 = k then removeKey l k else e :: removeKey l k

/-- Raw lookup of a key's entry (value and ttl), ignoring availability. -/
def cache_lookup (c : CacheState) (k : String) : Option (CacheValue × Nat) :=
  lookupKey c.entries k

/-- The raw Redis GET: raises (`Except.error`) when the server is
unreachable, otherwise returns the stored value, if any. -/
def backend_get (c : CacheState) (k : String) : Except Unit (Option CacheValue) :=
  if c.available then .ok ((cache_lookup c k).map Prod.fst) else .error ()

/-- The raw Redis SET with TTL: raises when the server is unreachable. -/
def backend_set (c : CacheState) (k : String) (v : CacheValue) (ttl : Nat) :
    Except Unit CacheState :=
  if c.available then .ok { c with entries := (k, (v, ttl)) :: removeKey c.entries k }
  else .error ()

/-- Modelled from the spec: the configured Django cache client's `get`.
The repository's Django settings module (`CACHES` options such as
`IGNORE_EXCEPTIONS`) is not among the sources — the file named
`settings.py` holds a setup shell script — so the client's behaviour on an
unreachable server follows the spec: "Cache unavailability must degrade
gracefully — treat as unconditional miss and proceed to Store, logging the
condition, never failing the read because the cache is down." -/
def cache_get (c : CacheState) (k : String) : Option CacheValue :=
  match backend_get c k with
  | .ok v => v
  | .error _ => none

/-- Modelled from the spec: the configured client's `set`; on an
unreachable server the write is a logged no-op (see `cache_get`). -/
def cache_set (c : CacheState) (k : String) (v : CacheValue) (ttl : Nat) : CacheState :=
  match backend_set c k v ttl with
  | .ok c2 => c2
  | .error _ => c

/-- Modelled from the spec: the configured client's `delete`; invalidation
on an unreachable server is a no-op ("no-op (invalidation)"). -/
def cache_delete (c : CacheState) (k : String) : CacheState :=
  if c.available then { c with entries := removeKey c.entries k } else c

/-- Embeds `cache.delete_many(keys)`: delete each key in turn. -/
def cache_delete_many (c : CacheState) (ks : List String) : CacheState :=
  ks.foldl cache_delete c

/-- The `order_by('-created_at')` comparison: later rows first. -/
def createdDesc (p q : Property) : Prop := q.created_at ≤ p.created_at

instance : DecidableRel createdDesc := fun p q => Nat.decLe q.created_at p.created_at

instance : IsTotal Property createdDesc :=
  ⟨fun p q => Nat.le_total q.created_at p.created_at⟩

instance : IsTrans Property createdDesc :=
  ⟨fun _ _ _ hab hbc => Nat.le_trans hbc hab⟩

/-- Embeds `Property.objects.all().order_by('-created_at')`: a stable sort of the
rows by `created_at`, descending. -/
def orderByCreatedAtDesc (ps : List Property) : List Property :=
  ps.insertionSort createdDesc

/-- The SQL `Max` aggregate over the price column (`none` on an empty
relation). -/
def aggMax : List ℚ → Option ℚ
  | [] => none
  | x :: xs => some ((aggMax xs).elim x (max x))

/-- The SQL `Min` aggregate over the price column (`none` on an empty
relation). -/
def aggMin : List ℚ → Option ℚ
  | [] => none
  | x :: xs => some ((aggMin xs).elim x (min x))

/-- The outcome of one cache-aside read: the returned value, the cache
afterwards, and the side effects performed (cache reads and writes, store
queries, whether the read was served from cache). -/
structure ReadResult where
  result : CacheValue
  cache : CacheState
  cacheReads : Nat
  storeQueries : Nat
  cacheWrites : Nat
  hit : Bool
  deriving DecidableEq, Repr

/-- Embeds `utils.get_all_properties()`: cache-aside read of the full listing
under key `all_properties`; on a hit the cached value is returned
verbatim; on a miss the store is queried ordered by `created_at`
descending, the result materialized to a list and cached for 3600 s. -/
def get_all_properties (st : Store) (c : CacheState) : ReadResult :=
  let cache_key := "all_properties"
  match cache_get c cache_key with
  | some properties => ⟨properties, c, 1, 0, 0, true⟩
  | none =>
    let properties_list := orderByCreatedAtDesc st.props
    let c2 := cache_set c cache_key (.props properties_list) 3600
    ⟨.props properties_list, c2, 1, 1, 1, false⟩

/-- The database side of `get_property_stats` (`utils.py`): `count()`,
then, when the count is positive, the three aggregates; the stats dict
wraps each price as `float(x) if x else 0`. -/
def storeStats (st : Store) : PropertyStats :=
  let total_properties := st.props.length
  let prices := st.props.map Property.price
  let avg_price : ℚ :=
    if 0 < total_properties then prices.sum / (total_properties : ℚ) else 0
  let max_price : ℚ := if 0 < total_properties then (aggMax prices).getD 0 else 0
  let min_price : ℚ := if 0 < total_properties then (aggMin prices).getD 0 else 0
  { total_properties := total_properties
    avg_price := if avg_price = 0 then 0 else avg_price
    max_price := if max_price = 0 then 0 else max_price
    min_price := if min_price = 0 then 0 else min_price }

/-- Embeds `utils.get_property_stats()`: cache-aside read of the aggregate record
under key `property_stats`, cached for 1800 s on a miss. The miss path
issues one count query, plus the three aggregate queries when the count is
positive. -/
def get_property_stats (st : Store) (c : CacheState) : ReadResult :=
  let cache_key := "property_stats"
  match cache_get c cache_key with
  | some stats => ⟨stats, c, 1, 0, 0, true⟩
  | none =>
    let stats := storeStats st
    let c2 := cache_set c cache_key (.stats stats) 1800
    ⟨.stats stats, c2, 1, if 0 < st.props.length then 4 else 1, 1, false⟩

/-- Python `str.lower()`: the per-character case mapping. -/
def pyLower (s : String) : String := ⟨s.data.map Char.toLower⟩

/-- Python `str.replace(" ", "_")`: the pattern is a single character, so
the replacement is a per-character map. -/
def pyReplaceSpace (s : String) : String :=
  ⟨s.data.map (fun c => if c = ' ' then '_' else c)⟩

/-- The cache key built by `get_properties_by_location`:
the string `properties_location_` followed by
`location.lower().replace(" ", "_")`. -/
def locationCacheKey (location : String) : String :=
  "properties_location_" ++ pyReplaceSpace (pyLower location)

/-- Whether `needle` occurs as a contiguous subsequence of `haystack`. -/
def containsSeq (needle : List Char) : List Char → Bool
  | [] => needle.isEmpty
  | c :: rest => needle.isPrefixOf (c :: rest) || containsSeq needle rest

/-- Django `location__icontains=location`: case-insensitive substring
containment of the argument in the row's location field. -/
def icontains (haystack needle : String) : Bool :=
  containsSeq (pyLower needle).data (pyLower haystack).data

/-- Embeds `Property.objects.filter(location__icontains=location)
.order_by('-created_at')`, materialized. -/
def locationQuery (location : String) (st : Store) : List Property :=
  orderByCreatedAtDesc (st.props.filter (fun p => icontains p.location location))

/-- Embeds `utils.get_properties_by_location(location)`: cache-aside read of the
filtered listing under the normalized location key, cached for 900 s on a
miss. -/
def get_properties_by_location (location : String) (st : Store) (c : CacheState) :
    ReadResult :=
  let cache_key := locationCacheKey location
  match cache_get c cache_key with
  | some properties => ⟨properties, c, 1, 0, 0, true⟩
  | none =>
    let properties := locationQuery location st
    let c2 := cache_set c cache_key (.props properties) 900
    ⟨.props properties, c2, 1, 1, 1, false⟩

/-- Embeds `signals.invalidate_property_cache_on_save`: on any save (create or
update) delete the keys `all_properties` and `property_stats`; `inst` and
`created` only feed the log line. -/
def invalidate_property_cache_on_save (inst : Property) (created : Bool)
    (c : CacheState) : CacheState :=
  cache_delete (cache_delete c "all_properties") "property_stats"

/-- Embeds `signals.invalidate_property_cache_on_delete`: on any delete, delete
the keys `all_properties` and `property_stats`. -/
def invalidate_property_cache_on_delete (inst : Property) (c : CacheState) : CacheState :=
  cache_delete (cache_delete c "all_properties") "property_stats"

/-- Embeds `signals.invalidate_all_property_caches`: the administrative sweep.
The pattern-based enumeration of raw Redis keys (which carry the
django-redis `property_listings:1:` key prefix) is passed as an `Except`:
`.error` is the caught-and-logged exception path, after which the key list
stays at the two base keys; `.ok` extends the list with the stripped
per-location keys when any exist. Either way `delete_many` runs at the
end. -/
def invalidate_all_property_caches (c : CacheState)
    (enumeration : Except String (List String)) : CacheState :=
  let cache_keys := ["all_properties", "property_stats"]
  let cache_keys :=
    match enumeration with
    | .ok location_keys =>
      if location_keys.isEmpty then cache_keys
      else cache_keys ++
        location_keys.map (fun k => k.replace "property_listings:1:" "")
    | .error _ => cache_keys
  cache_delete_many c cache_keys

/-- What the body of `get_redis_cache_metrics` can observe: the Redis INFO
keyspace counters, an `ImportError` for `django_redis`, or any other
exception while connecting or reading. -/
inductive RedisConnOutcome where
  | ok (keyspace_hits keyspace_misses : Nat)
  | importErr (msg : String)
  | connErr (msg : String)
  deriving DecidableEq, Repr

/-- The dictionary returned by `get_redis_cache_metrics` (the `error` key
is present only on the exception paths). -/
structure CacheMetrics where
  error : Option String
  keyspace_hits : Nat
  keyspace_misses : Nat
  hit_ratio : ℚ
  total_requests : Nat
  hit_ratio_percentage : ℚ
  deriving DecidableEq, Repr

/-- Embeds `utils.get_redis_cache_metrics()`: on success, the counters and the
derived ratio (Python 3 true division, embedded as `ℚ`); both `except`
branches return the zeroed dictionary with an `error` marker. -/
def get_redis_cache_metrics (conn : RedisConnOutcome) : CacheMetrics :=
  match conn with
  | .ok keyspace_hits keyspace_misses =>
    let total_requests := keyspace_hits + keyspace_misses
    let hit_ratio : ℚ :=
      if 0 < total_requests then (keyspace_hits : ℚ) / (total_requests : ℚ) else 0
    { error := none
      keyspace_hits := keyspace_hits
      keyspace_misses := keyspace_misses
      hit_ratio := hit_ratio
      total_requests := total_requests
      hit_ratio_percentage := hit_ratio * 100 }
  | .importErr _ =>
    { error := some "django_redis not available"
      keyspace_hits := 0
      keyspace_misses := 0
      hit_ratio := 0
      total_requests := 0
      hit_ratio_percentage := 0 }
  | .connErr msg =>
    { error := some msg
      keyspace_hits := 0
      keyspace_misses := 0
      hit_ratio := 0
      total_requests := 0
      hit_ratio_percentage := 0 }

/-- Looking a key up after removing a (possibly different) key. -/
theorem lookupKey_removeKey (l : List (String × (CacheValue × Nat))) (k k' : String) :
    lookupKey (removeKey l k) k' = if k' = k then none else lookupKey l k' := by
  induction l with
  | nil => simp [removeKey, lookupKey]
  | cons e l ih =>
    by_cases hek : e.1 = k
    · by_cases hk : k' = k
      · subst hk
        simp [removeKey, hek, ih]
      · have hk2 : ¬ k = k' := fun h => hk h.symm
        have hek' : ¬ e.1 = k' := by rw [hek]; exact hk2
        simp [removeKey, lookupKey, hek, ih, hk, hek', hk2]
    · by_cases hke : e.1 = k'
      · have hk : ¬ k' = k := by rw [← hke]; exact fun h => hek h
        simp [removeKey, lookupKey, hek, hke, hk]
      · simp [removeKey, lookupKey, hek, hke, ih]

/-- On a live cache the client `get` is the raw table lookup. -/
theorem cache_get_available (c : CacheState) (k : String) (hav : c.available = true) :
    cache_get c k = (cache_lookup c k).map Prod.fst := by
  simp [cache_get, backend_get, hav]

/-- On an unreachable cache the client `get` is an unconditional miss. -/
theorem cache_get_unavailable (c : CacheState) (k : String) (hav : c.available = false) :
    cache_get c k = none := by
  simp [cache_get, backend_get, hav]

/-- On a live cache the client `set` stores the entry. -/
theorem cache_set_available (c : CacheState) (k : String) (v : CacheValue) (ttl : Nat)
    (hav : c.available = true) :
    cache_set c k v ttl = { c with entries := (k, (v, ttl)) :: removeKey c.entries k } := by
  simp [cache_set, backend_set, hav]

/-- Writing to the cache does not change server availability. -/
theorem cache_set_preserves_available (c : CacheState) (k : String) (v : CacheValue)
    (ttl : Nat) : (cache_set c k v ttl).available = c.available := by
  by_cases h : c.available <;> simp [cache_set, backend_set, h]

/-- Deleting from the cache does not change server availability. -/
theorem cache_delete_preserves_available (c : CacheState) (k : String) :
    (cache_delete c k).available = c.available := by
  by_cases h : c.available <;> simp [cache_delete, h]

/-- Lookup in a live cache after a `set`. -/
theorem cache_lookup_set (c : CacheState) (hav : c.available = true)
    (k k' : String) (v : CacheValue) (ttl : Nat) :
    cache_lookup (cache_set c k v ttl) k' =
      if k' = k then some (v, ttl) else cache_lookup c k' := by
  rw [cache_set_available c k v ttl hav]
  by_cases h : k' = k
  · simp [cache_lookup, lookupKey, h]
  · have : ¬ k = k' := fun he => h he.symm
    simp [cache_lookup, lookupKey, this, lookupKey_removeKey, h]

/-- Lookup in a live cache after a `delete`. -/
theorem cache_lookup_delete (c : CacheState) (hav : c.available = true) (k k' : String) :
    cache_lookup (cache_delete c k) k' = if k' = k then none else cache_lookup c k' := by
  simp [cache_delete, hav, cache_lookup, lookupKey_removeKey]

/-- The materialized full listing is a permutation of the store's rows. -/
theorem orderByCreatedAtDesc_perm (ps : List Property) :
    (orderByCreatedAtDesc ps).Perm ps :=
  List.perm_insertionSort createdDesc ps

/-- The materialized full listing is sorted by `created_at` descending. -/
theorem orderByCreatedAtDesc_sorted (ps : List Property) :
    List.Sorted createdDesc (orderByCreatedAtDesc ps) :=
  List.sorted_insertionSort createdDesc ps

/-- The `Max` aggregate of a nonempty relation is an element of it. -/
theorem aggMax_mem (l : List ℚ) (m : ℚ) (h : aggMax l = some m) : m ∈ l := by
  induction l generalizing m with
  | nil => simp [aggMax] at h
  | cons x xs ih =>
    rw [aggMax] at h
    cases hx : aggMax xs with
    | none => rw [hx] at h; simp [Option.elim] at h; simp [h]
    | some m2 =>
      rw [hx] at h
      simp only [Option.elim, Option.some.injEq] at h
      rcases max_choice x m2 with hc | hc
      · rw [← h, hc]; exact List.mem_cons_self x xs
      · rw [← h, hc]; exact List.mem_cons_of_mem x (ih m2 hx)

/-- Every row's price is bounded by the `Max` aggregate. -/
theorem le_aggMax (l : List ℚ) (m : ℚ) (h : aggMax l = some m) :
    ∀ x ∈ l, x ≤ m := by
  induction l generalizing m with
  | nil => simp
  | cons a as ih =>
    rw [aggMax] at h
    cases hx : aggMax as with
    | none =>
      rw [hx] at h
      simp only [Option.elim, Option.some.injEq] at h
      cases as with
      | nil => intro x hxm; simp at hxm; rw [hxm, ← h]
      | cons b bs => rw [aggMax] at hx; exact absurd hx (by simp)
    | some m2 =>
      rw [hx] at h
      simp only [Option.elim, Option.some.injEq] at h
      intro x hxm
      rcases List.mem_cons.mp hxm with rfl | hxs
      · rw [← h]; exact le_max_left x m2
      · exact le_trans (ih m2 hx x hxs) (by rw [← h]; exact le_max_right a m2)

/-- The `Min` aggregate of a nonempty relation is an element of it. -/
theorem aggMin_mem (l : List ℚ) (m : ℚ) (h : aggMin l = some m) : m ∈ l := by
  induction l generalizing m with
  | nil => simp [aggMin] at h
  | cons x xs ih =>
    rw [aggMin] at h
    cases hx : aggMin xs with
    | none => rw [hx] at h; simp [Option.elim] at h; simp [h]
    | some m2 =>
      rw [hx] at h
      simp only [Option.elim, Option.some.injEq] at h
      rcases min_choice x m2 with hc | hc
      · rw [← h, hc]; exact List.mem_cons_self x xs
      · rw [← h, hc]; exact List.mem_cons_of_mem x (ih m2 hx)

/-- Every row's price is bounded below by the `Min` aggregate. -/
theorem aggMin_le (l : List ℚ) (m : ℚ) (h : aggMin l = some m) :
    ∀ x ∈ l, m ≤ x := by
  induction l generalizing m with
  | nil => simp
  | cons a as ih =>
    rw [aggMin] at h
    cases hx : aggMin as with
    | none =>
      rw [hx] at h
      simp only [Option.elim, Option.some.injEq] at h
      cases as with
      | nil => intro x hxm; simp at hxm; rw [hxm, ← h]
      | cons b bs => rw [aggMin] at hx; exact absurd hx (by simp)
    | some m2 =>
      rw [hx] at h
      simp only [Option.elim, Option.some.injEq] at h
      intro x hxm
      rcases List.mem_cons.mp hxm with rfl | hxs
      · rw [← h]; exact min_le_left x m2
      · exact le_trans (by rw [← h]; exact min_le_right a m2) (ih m2 hx x hxs)

/-- The Python truthiness guard `float(x) if x else 0` on a number that is
already defined (never `None`) is the identity. -/
theorem ifZeroElseSelf (x : ℚ) : (if x = 0 then (0 : ℚ) else x) = x := by
  split <;> simp_all

/-- String length distributes over append. -/
theorem string_length_append (a b : String) : (a ++ b).length = a.length + b.length :=
  List.length_append a.data b.data

/-- A per-location cache key is never the full-listing key. -/
theorem locationCacheKey_ne_all (loc : String) :
    locationCacheKey loc ≠ "all_properties" := by
  intro h
  have hlen := congrArg String.length h
  rw [locationCacheKey, string_length_append] at hlen
  have h20 : ("properties_location_" : String).length = 20 := rfl
  have h14 : ("all_properties" : String).length = 14 := rfl
  rw [h20, h14] at hlen
  omega

/-- A per-location cache key is never the stats key. -/
theorem locationCacheKey_ne_stats (loc : String) :
    locationCacheKey loc ≠ "property_stats" := by
  intro h
  have hlen := congrArg String.length h
  rw [locationCacheKey, string_length_append] at hlen
  have h20 : ("properties_location_" : String).length = 20 := rfl
  have h14 : ("property_stats" : String).length = 14 := rfl
  rw [h20, h14] at hlen
  omega

/-- Lookup after the two base-key deletions the write handlers perform. -/
theorem lookup_after_two_deletes (c : CacheState) (hav : c.available = true) (k : String) :
    cache_lookup (cache_delete (cache_delete c "all_properties") "property_stats") k
      = if k = "property_stats" then none
        else if k = "all_properties" then none
        else cache_lookup c k := by
  have hav1 : (cache_delete c "all_properties").available = true := by
    rw [cache_delete_preserves_available]; exact hav
  rw [cache_lookup_delete (cache_delete c "all_properties") hav1 "property_stats" k]
  by_cases h1 : k = "property_stats"
  · simp [h1]
  · rw [if_neg h1, cache_lookup_delete c hav "all_properties" k]
    simp [h1]

/-- The stats record counts exactly the store's rows. -/
theorem storeStats_total (st : Store) :
    (storeStats st).total_properties = st.props.length := rfl

/-- Stats over an empty store: count and all price fields are zero. -/
theorem storeStats_of_empty (st : Store) (h : st.props = []) :
    storeStats st = ⟨0, 0, 0, 0⟩ := by
  simp [storeStats, h]

/-- The cached average over a nonempty store is the arithmetic mean of the
prices. -/
theorem storeStats_avg (st : Store) (h : st.props ≠ []) :
    (storeStats st).avg_price
      = (st.props.map Property.price).sum / (st.props.length : ℚ) := by
  have hl : 0 < st.props.length := List.length_pos.mpr h
  simp [storeStats, hl, ifZeroElseSelf]
  rintro (hs | hp)
  · rw [hs]; simp
  · exact absurd hp h

/-- The cached maximum over a nonempty store is a price of the set and
bounds every price of the set. -/
theorem storeStats_max (st : Store) (h : st.props ≠ []) :
    (storeStats st).max_price ∈ st.props.map Property.price ∧
    ∀ x ∈ st.props.map Property.price, x ≤ (storeStats st).max_price := by
  have hl : 0 < st.props.length := List.length_pos.mpr h
  obtain ⟨p, ps, hps⟩ : ∃ p ps, st.props = p :: ps := by
    cases hc : st.props with
    | nil => exact absurd hc h
    | cons p ps => exact ⟨p, ps, rfl⟩
  obtain ⟨m, hm⟩ : ∃ m, aggMax (st.props.map Property.price) = some m := by
    rw [hps]; exact ⟨_, rfl⟩
  have hval : (storeStats st).max_price = m := by
    simp [storeStats, hl, hm, ifZeroElseSelf]
  constructor
  · rw [hval]; exact aggMax_mem _ m hm
  · intro x hx
    rw [hval]; exact le_aggMax _ m hm x hx

/-- The cached minimum over a nonempty store is a price of the set and is
bounded by every price of the set. -/
theorem storeStats_min (st : Store) (h : st.props ≠ []) :
    (storeStats st).min_price ∈ st.props.map Property.price ∧
    ∀ x ∈ st.props.map Property.price, (storeStats st).min_price ≤ x := by
  have hl : 0 < st.props.length := List.length_pos.mpr h
  obtain ⟨p, ps, hps⟩ : ∃ p ps, st.props = p :: ps := by
    cases hc : st.props with
    | nil => exact absurd hc h
    | cons p ps => exact ⟨p, ps, rfl⟩
  obtain ⟨m, hm⟩ : ∃ m, aggMin (st.props.map Property.price) = some m := by
    rw [hps]; exact ⟨_, rfl⟩
  have hval : (storeStats st).min_price = m := by
    simp [storeStats, hl, hm, ifZeroElseSelf]
  constructor
  · rw [hval]; exact aggMin_mem _ m hm
  · intro x hx
    rw [hval]; exact aggMin_le _ m hm x hx

/-- A sample row used to instantiate hypotheses at concrete inputs. -/
def sampleProp : Property :=
  { id := 1, title := "A", description := "Nice", price := 100,
    location := "Lagos", created_at := 1 }

/-- C1: if the cache server is unreachable — its raw `get` and `set`
raise — each of the three reads (`get_all_properties`,
`get_property_stats`, `get_properties_by_location`) still completes and
returns exactly the store-computed result; no read fails because the
cache is down. -/
theorem reads_survive_cache_outage (st : Store)
    (entries : List (String × (CacheValue × Nat))) (loc : String) :
    backend_get ⟨entries, false⟩ "all_properties" = .error () ∧
    (∀ v ttl, backend_set ⟨entries, false⟩ "all_properties" v ttl = .error ()) ∧
    (get_all_properties st ⟨entries, false⟩).result
      = .props (orderByCreatedAtDesc st.props) ∧
    (get_property_stats st ⟨entries, false⟩).result = .stats (storeStats st) ∧
    (get_properties_by_location loc st ⟨entries, false⟩).result
      = .props (locationQuery loc st) := by
  have hg : ∀ k, cache_get ⟨entries, false⟩ k = none := fun k =>
    cache_get_unavailable ⟨entries, false⟩ k rfl
  refine ⟨rfl, fun v ttl => rfl, ?_, ?_, ?_⟩
  · simp [get_all_properties, hg]
  · simp [get_property_stats, hg]
  · simp [get_properties_by_location, hg]

/-- C2: `get_all_properties()` looks up the key `all_properties`; on a hit
it returns the cached value verbatim, leaving cache and store untouched;
on a miss it returns the store's rows sorted by `created_at` descending
(a sorted permutation of the rows), materialized, after caching that list
under `all_properties` with TTL 3600 s; every call performs one cache
read, at most one store query and at most one cache write. -/
theorem get_all_properties_spec (st : Store) (c : CacheState) (hav : c.available = true) :
    (∀ v ttl, cache_lookup c "all_properties" = some (v, ttl) →
      (get_all_properties st c).result = v ∧
      (get_all_properties st c).cache = c ∧
      (get_all_properties st c).storeQueries = 0) ∧
    (cache_lookup c "all_properties" = none →
      (get_all_properties st c).result = .props (orderByCreatedAtDesc st.props) ∧
      (orderByCreatedAtDesc st.props).Perm st.props ∧
      List.Sorted createdDesc (orderByCreatedAtDesc st.props) ∧
      cache_lookup (get_all_properties st c).cache "all_properties"
        = some (.props (orderByCreatedAtDesc st.props), 3600) ∧
      (get_all_properties st c).storeQueries = 1) ∧
    (get_all_properties st c).cacheReads = 1 ∧
    (get_all_properties st c).storeQueries ≤ 1 ∧
    (get_all_properties st c).cacheWrites ≤ 1 := by
  have hget := cache_get_available c "all_properties" hav
  cases hcl : cache_lookup c "all_properties" with
  | some p =>
    obtain ⟨v0, ttl0⟩ := p
    have hg : cache_get c "all_properties" = some v0 := by rw [hget, hcl]; rfl
    refine ⟨?_, ?_, ?_, ?_, ?_⟩
    · intro v ttl hvt
      injection hvt with hp
      injection hp with hv httl
      subst hv
      exact ⟨by simp [get_all_properties, hg], by simp [get_all_properties, hg],
        by simp [get_all_properties, hg]⟩
    · intro hnone
      exact Option.noConfusion hnone
    · simp [get_all_properties, hg]
    · simp [get_all_properties, hg]
    · simp [get_all_properties, hg]
  | none =>
    have hg : cache_get c "all_properties" = none := by rw [hget, hcl]; rfl
    refine ⟨?_, ?_, ?_, ?_, ?_⟩
    · intro v ttl hvt
      exact Option.noConfusion hvt
    · intro _
      refine ⟨by simp [get_all_properties, hg], orderByCreatedAtDesc_perm st.props,
        orderByCreatedAtDesc_sorted st.props, ?_, by simp [get_all_properties, hg]⟩
      have hc2 : (get_all_properties st c).cache
          = cache_set c "all_properties" (.props (orderByCreatedAtDesc st.props)) 3600 := by
        simp [get_all_properties, hg]
      rw [hc2, cache_lookup_set c hav]
      simp
    · simp [get_all_properties, hg]
    · simp [get_all_properties, hg]
    · simp [get_all_properties, hg]

/-- Witness for `get_all_properties_spec`: a concrete hit on a cached
value, and a concrete miss that issues the single store query. -/
theorem get_all_properties_spec_witness :
    (get_all_properties ⟨[sampleProp]⟩
        ⟨[("all_properties", (CacheValue.props [], 3600))], true⟩).result
      = CacheValue.props [] ∧
    (get_all_properties ⟨[sampleProp]⟩ ⟨[], true⟩).storeQueries = 1 :=
  ⟨((get_all_properties_spec ⟨[sampleProp]⟩
        ⟨[("all_properties", (CacheValue.props [], 3600))], true⟩ rfl).1
      (CacheValue.props []) 3600 (by decide)).1,
   ((get_all_properties_spec ⟨[sampleProp]⟩ ⟨[], true⟩ rfl).2.1 rfl).2.2.2.2⟩

/-- C3: the save and delete signal handlers remove exactly the keys
`all_properties` and `property_stats`; every other key — in particular
every per-location key `properties_location_*` — is left unchanged, so
location buckets are only ever evicted by the explicit administrative
sweep, never per write. -/
theorem write_invalidation_exact_keys (c : CacheState) (hav : c.available = true)
    (inst : Property) (created : Bool) :
    cache_lookup (invalidate_property_cache_on_save inst created c)
      "all_properties" = none ∧
    cache_lookup (invalidate_property_cache_on_save inst created c)
      "property_stats" = none ∧
    (∀ k, k ≠ "all_properties" → k ≠ "property_stats" →
      cache_lookup (invalidate_property_cache_on_save inst created c) k
        = cache_lookup c k) ∧
    (∀ loc, cache_lookup (invalidate_property_cache_on_save inst created c)
        (locationCacheKey loc) = cache_lookup c (locationCacheKey loc)) ∧
    cache_lookup (invalidate_property_cache_on_delete inst c) "all_properties" = none ∧
    cache_lookup (invalidate_property_cache_on_delete inst c) "property_stats" = none ∧
    (∀ k, k ≠ "all_properties" → k ≠ "property_stats" →
      cache_lookup (invalidate_property_cache_on_delete inst c) k = cache_lookup c k) ∧
    (∀ loc, cache_lookup (invalidate_property_cache_on_delete inst c)
        (locationCacheKey loc) = cache_lookup c (locationCacheKey loc)) := by
  have hsave : invalidate_property_cache_on_save inst created c
      = cache_delete (cache_delete c "all_properties") "property_stats" := rfl
  have hdel : invalidate_property_cache_on_delete inst c
      = cache_delete (cache_delete c "all_properties") "property_stats" := rfl
  have hmain := lookup_after_two_deletes c hav
  refine ⟨?_, ?_, ?_, ?_, ?_, ?_, ?_, ?_⟩
  · rw [hsave, hmain, if_neg (by decide), if_pos rfl]
  · rw [hsave, hmain, if_pos rfl]
  · intro k hk1 hk2
    rw [hsave, hmain, if_neg hk2, if_neg hk1]
  · intro loc
    rw [hsave, hmain, if_neg (locationCacheKey_ne_stats loc),
      if_neg (locationCacheKey_ne_all loc)]
  · rw [hdel, hmain, if_neg (by decide), if_pos rfl]
  · rw [hdel, hmain, if_pos rfl]
  · intro k hk1 hk2
    rw [hdel, hmain, if_neg hk2, if_neg hk1]
  · intro loc
    rw [hdel, hmain, if_neg (locationCacheKey_ne_stats loc),
      if_neg (locationCacheKey_ne_all loc)]

/-- Witness for `write_invalidation_exact_keys`: on a concrete cache
holding the full listing and a location bucket, a save deletes the
listing key and leaves the location bucket alone. -/
theorem write_invalidation_exact_keys_witness :
    cache_lookup (invalidate_property_cache_on_save sampleProp true
      ⟨[("all_properties", (CacheValue.props [], 3600)),
        (locationCacheKey "Lagos", (CacheValue.props [], 900))], true⟩)
      "all_properties" = none ∧
    cache_lookup (invalidate_property_cache_on_save sampleProp true
      ⟨[("all_properties", (CacheValue.props [], 3600)),
        (locationCacheKey "Lagos", (CacheValue.props [], 900))], true⟩)
      (locationCacheKey "Lagos")
      = cache_lookup
        ⟨[("all_properties", (CacheValue.props [], 3600)),
          (locationCacheKey "Lagos", (CacheValue.props [], 900))], true⟩
        (locationCacheKey "Lagos") :=
  ⟨(write_invalidation_exact_keys
      ⟨[("all_properties", (CacheValue.props [], 3600)),
        (locationCacheKey "Lagos", (CacheValue.props [], 900))], true⟩
      rfl sampleProp true).1,
   (write_invalidation_exact_keys
      ⟨[("all_properties", (CacheValue.props [], 3600)),
        (locationCacheKey "Lagos", (CacheValue.props [], 900))], true⟩
      rfl sampleProp true).2.2.2.1 "Lagos"⟩

/-- C4: on a cache miss `get_property_stats()` returns the aggregate
record computed over exactly the store's rows — their count, and the
mean, maximum and minimum of their prices — and caches it under
`property_stats` with TTL 1800 s; over an empty store the count and all
three price fields are `0` (total values, never a null and never an
error). -/
theorem get_property_stats_spec (st : Store) (c : CacheState)
    (hav : c.available = true) (hmiss : cache_lookup c "property_stats" = none) :
    (get_property_stats st c).result = .stats (storeStats st) ∧
    cache_lookup (get_property_stats st c).cache "property_stats"
      = some (.stats (storeStats st), 1800) ∧
    (storeStats st).total_properties = st.props.length ∧
    (st.props = [] → storeStats st = ⟨0, 0, 0, 0⟩) ∧
    (st.props ≠ [] →
      (storeStats st).avg_price
        = (st.props.map Property.price).sum / (st.props.length : ℚ) ∧
      (storeStats st).max_price ∈ st.props.map Property.price ∧
      (∀ x ∈ st.props.map Property.price, x ≤ (storeStats st).max_price) ∧
      (storeStats st).min_price ∈ st.props.map Property.price ∧
      (∀ x ∈ st.props.map Property.price, (storeStats st).min_price ≤ x)) := by
  have hg : cache_get c "property_stats" = none := by
    rw [cache_get_available c _ hav, hmiss]; rfl
  refine ⟨by simp [get_property_stats, hg], ?_, storeStats_total st,
    storeStats_of_empty st, ?_⟩
  · have hc2 : (get_property_stats st c).cache
        = cache_set c "property_stats" (.stats (storeStats st)) 1800 := by
      simp [get_property_stats, hg]
    rw [hc2, cache_lookup_set c hav]
    simp
  · intro hne
    obtain ⟨hmx, hmxb⟩ := storeStats_max st hne
    obtain ⟨hmn, hmnb⟩ := storeStats_min st hne
    exact ⟨storeStats_avg st hne, hmx, hmxb, hmn, hmnb⟩

/-- Witness for `get_property_stats_spec`: a concrete miss over a
one-row store, and the all-zero record over the empty store. -/
theorem get_property_stats_spec_witness :
    (get_property_stats ⟨[sampleProp]⟩ ⟨[], true⟩).result
      = CacheValue.stats (storeStats ⟨[sampleProp]⟩) ∧
    storeStats ⟨[]⟩ = ⟨0, 0, 0, 0⟩ :=
  ⟨(get_property_stats_spec ⟨[sampleProp]⟩ ⟨[], true⟩ rfl rfl).1,
   (get_property_stats_spec ⟨[]⟩ ⟨[], true⟩ rfl rfl).2.2.2.1 rfl⟩

/-- C5: two location arguments that agree up to letter case normalize to
the same cache key (lowercase, spaces to underscores), so a second call
with the re-cased argument hits the entry populated by the first call and
returns its cached result. -/
theorem location_key_case_insensitive (loc1 loc2 : String)
    (hcase : pyLower loc1 = pyLower loc2) :
    locationCacheKey loc1 = locationCacheKey loc2 ∧
    (∀ st c, c.available = true → cache_lookup c (locationCacheKey loc1) = none →
      (get_properties_by_location loc2 st
        (get_properties_by_location loc1 st c).cache).hit = true ∧
      (get_properties_by_location loc2 st
          (get_properties_by_location loc1 st c).cache).result
        = (get_properties_by_location loc1 st c).result) := by
  have hkey : locationCacheKey loc1 = locationCacheKey loc2 := by
    rw [locationCacheKey, locationCacheKey, hcase]
  refine ⟨hkey, fun st c hav hmiss => ?_⟩
  have hg1 : cache_get c (locationCacheKey loc1) = none := by
    rw [cache_get_available c _ hav, hmiss]; rfl
  have h1 : get_properties_by_location loc1 st c =
      ⟨.props (locationQuery loc1 st),
       cache_set c (locationCacheKey loc1) (.props (locationQuery loc1 st)) 900,
       1, 1, 1, false⟩ := by
    simp [get_properties_by_location, hg1]
  have hav2 : (cache_set c (locationCacheKey loc1)
      (.props (locationQuery loc1 st)) 900).available = true := by
    rw [cache_set_preserves_available]; exact hav
  have hl2 : cache_lookup (cache_set c (locationCacheKey loc1)
      (.props (locationQuery loc1 st)) 900) (locationCacheKey loc2)
      = some (.props (locationQuery loc1 st), 900) := by
    rw [cache_lookup_set c hav, if_pos hkey.symm]
  have hg2 : cache_get (cache_set c (locationCacheKey loc1)
      (.props (locationQuery loc1 st)) 900) (locationCacheKey loc2)
      = some (.props (locationQuery loc1 st)) := by
    rw [cache_get_available _ _ hav2, hl2]; rfl
  rw [h1]
  refine ⟨?_, ?_⟩ <;> simp [get_properties_by_location, hg2]

/-- Witness for `location_key_case_insensitive`: the differently cased
arguments of the spec's own example share one key, and the second call is
a concrete hit. -/
theorem location_key_case_insensitive_witness :
    pyLower "New York" = pyLower "NEW YORK" ∧
    locationCacheKey "New York" = locationCacheKey "NEW YORK" ∧
    (get_properties_by_location "NEW YORK" ⟨[sampleProp]⟩
      (get_properties_by_location "New York" ⟨[sampleProp]⟩ ⟨[], true⟩).cache).hit
      = true :=
  ⟨by decide,
   (location_key_case_insensitive "New York" "NEW YORK" (by decide)).1,
   ((location_key_case_insensitive "New York" "NEW YORK" (by decide)).2
      ⟨[sampleProp]⟩ ⟨[], true⟩ rfl rfl).1⟩

/-- C6: with `all_properties` initially absent, two consecutive
`get_all_properties()` calls with no intervening store writes return the
same result and query the store exactly once: the first call misses and
populates the cache, the second call hits. -/
theorem get_all_properties_idempotent (st : Store) (c : CacheState)
    (hav : c.available = true) (hmiss : cache_lookup c "all_properties" = none) :
    (get_all_properties st (get_all_properties st c).cache).result
      = (get_all_properties st c).result ∧
    (get_all_properties st c).hit = false ∧
    (get_all_properties st (get_all_properties st c).cache).hit = true ∧
    (get_all_properties st c).storeQueries
      + (get_all_properties st (get_all_properties st c).cache).storeQueries = 1 := by
  have hg1 : cache_get c "all_properties" = none := by
    rw [cache_get_available c _ hav, hmiss]; rfl
  have h1 : get_all_properties st c =
      ⟨.props (orderByCreatedAtDesc st.props),
       cache_set c "all_properties" (.props (orderByCreatedAtDesc st.props)) 3600,
       1, 1, 1, false⟩ := by
    simp [get_all_properties, hg1]
  have hav2 : (cache_set c "all_properties"
      (.props (orderByCreatedAtDesc st.props)) 3600).available = true := by
    rw [cache_set_preserves_available]; exact hav
  have hl2 : cache_lookup (cache_set c "all_properties"
      (.props (orderByCreatedAtDesc st.props)) 3600) "all_properties"
      = some (.props (orderByCreatedAtDesc st.props), 3600) := by
    rw [cache_lookup_set c hav, if_pos rfl]
  have hg2 : cache_get (cache_set c "all_properties"
      (.props (orderByCreatedAtDesc st.props)) 3600) "all_properties"
      = some (.props (orderByCreatedAtDesc st.props)) := by
    rw [cache_get_available _ _ hav2, hl2]; rfl
  rw [h1]
  refine ⟨?_, rfl, ?_, ?_⟩ <;> simp [get_all_properties, hg2]

/-- Witness for `get_all_properties_idempotent`: a concrete second call
that is a cache hit. -/
theorem get_all_properties_idempotent_witness :
    (get_all_properties ⟨[sampleProp]⟩
      (get_all_properties ⟨[sampleProp]⟩ ⟨[], true⟩).cache).hit = true :=
  (get_all_properties_idempotent ⟨[sampleProp]⟩ ⟨[], true⟩ rfl rfl).2.2.1

/-- C7: `get_redis_cache_metrics()` is a total function — no input makes
it raise. When the statistics interface answers it reports the hit and
miss counters, their sum, the hit ratio `H/(H+M)` (0 when the total is 0)
and that ratio as a percentage; on an import failure or any other
exception it returns the zeroed record annotated with an error marker
instead of propagating the failure. -/
theorem get_redis_cache_metrics_spec :
    (∀ hits misses : Nat,
      (get_redis_cache_metrics (.ok hits misses)).error = none ∧
      (get_redis_cache_metrics (.ok hits misses)).keyspace_hits = hits ∧
      (get_redis_cache_metrics (.ok hits misses)).keyspace_misses = misses ∧
      (get_redis_cache_metrics (.ok hits misses)).total_requests = hits + misses ∧
      CacheMetrics.hit_ratio (get_redis_cache_metrics (.ok hits misses))
        = (if 0 < hits + misses then (hits : ℚ) / (((hits + misses : Nat)) : ℚ) else 0) ∧
      (get_redis_cache_metrics (.ok hits misses)).hit_ratio_percentage
        = CacheMetrics.hit_ratio (get_redis_cache_metrics (.ok hits misses)) * 100) ∧
    (∀ msg : String,
      (get_redis_cache_metrics (.importErr msg)).error.isSome = true ∧
      get_redis_cache_metrics (.importErr msg)
        = ⟨some "django_redis not available", 0, 0, 0, 0, 0⟩) ∧
    (∀ msg : String,
      (get_redis_cache_metrics (.connErr msg)).error = some msg ∧
      get_redis_cache_metrics (.connErr msg) = ⟨some msg, 0, 0, 0, 0, 0⟩) := by
  refine ⟨fun hits misses => ?_, fun msg => ⟨rfl, rfl⟩, fun msg => ⟨rfl, rfl⟩⟩
  refine ⟨rfl, rfl, rfl, rfl, ?_, rfl⟩
  simp [get_redis_cache_metrics]

/-- C8: with an empty store and `all_properties` absent,
`get_all_properties()` returns the empty list and writes it to the cache;
a second call within the TTL is a cache hit returning the same empty list
— the hit test compares the cached value against the absent marker
(`None`), not against falsiness, so the cached empty list is not mistaken
for a miss. -/
theorem empty_listing_cached_hit (c : CacheState)
    (hav : c.available = true) (hmiss : cache_lookup c "all_properties" = none) :
    (get_all_properties ⟨[]⟩ c).result = .props [] ∧
    (get_all_properties ⟨[]⟩ c).hit = false ∧
    cache_lookup (get_all_properties ⟨[]⟩ c).cache "all_properties"
      = some (.props [], 3600) ∧
    (get_all_properties ⟨[]⟩ (get_all_properties ⟨[]⟩ c).cache).hit = true ∧
    (get_all_properties ⟨[]⟩ (get_all_properties ⟨[]⟩ c).cache).result
      = .props [] := by
  have hg1 : cache_get c "all_properties" = none := by
    rw [cache_get_available c _ hav, hmiss]; rfl
  have h1 : get_all_properties ⟨[]⟩ c =
      ⟨.props [], cache_set c "all_properties" (.props []) 3600, 1, 1, 1, false⟩ := by
    simp [get_all_properties, hg1, orderByCreatedAtDesc]
  have hav2 : (cache_set c "all_properties" (.props []) 3600).available = true := by
    rw [cache_set_preserves_available]; exact hav
  have hl2 : cache_lookup (cache_set c "all_properties" (.props []) 3600)
      "all_properties" = some (.props [], 3600) := by
    rw [cache_lookup_set c hav, if_pos rfl]
  have hg2 : cache_get (cache_set c "all_properties" (.props []) 3600)
      "all_properties" = some (.props []) := by
    rw [cache_get_available _ _ hav2, hl2]; rfl
  rw [h1]
  refine ⟨rfl, rfl, hl2, ?_, ?_⟩ <;> simp [get_all_properties, hg2]

/-- Witness for `empty_listing_cached_hit`: the concrete empty cache. -/
theorem empty_listing_cached_hit_witness :
    (get_all_properties ⟨[]⟩ (get_all_properties ⟨[]⟩ ⟨[], true⟩).cache).hit
      = true :=
  (empty_listing_cached_hit ⟨[], true⟩ rfl rfl).2.2.2.1

/-- A row whose location contains the spaced form `"New York"` but not
the underscored form `"new_york"`. -/
def brooklynLoft : Property :=
  { id := 2, title := "Loft", description := "Roomy", price := 250,
    location := "Brooklyn, New York", created_at := 5 }

/-- C9: the location-key normalization is not injective: the distinct
arguments `"New York"` and `"new_york"` share the key
`properties_location_new_york`; on a store whose only row's location
contains `"New York"` but not `"new_york"`, a call with `"new_york"`
right after a call with `"New York"` is served the cached non-empty list,
although its own store filter result would be empty. -/
theorem location_key_not_injective :
    "New York" ≠ "new_york" ∧
    locationCacheKey "New York" = locationCacheKey "new_york" ∧
    locationCacheKey "New York" = "properties_location_new_york" ∧
    locationQuery "New York" ⟨[brooklynLoft]⟩ = [brooklynLoft] ∧
    locationQuery "new_york" ⟨[brooklynLoft]⟩ = [] ∧
    (get_properties_by_location "new_york" ⟨[brooklynLoft]⟩
      (get_properties_by_location "New York" ⟨[brooklynLoft]⟩ ⟨[], true⟩).cache).hit
      = true ∧
    (get_properties_by_location "new_york" ⟨[brooklynLoft]⟩
      (get_properties_by_location "New York" ⟨[brooklynLoft]⟩ ⟨[], true⟩).cache).result
      = .props [brooklynLoft] := by
  decide

/-- C10: even when the enumeration of per-location keys raises, the sweep
catches the exception and still performs the final `delete_many` over the
base keys, so `all_properties` and `property_stats` are absent
afterwards. -/
theorem sweep_survives_enumeration_failure (c : CacheState)
    (hav : c.available = true) (msg : String) :
    cache_lookup (invalidate_all_property_caches c (.error msg))
      "all_properties" = none ∧
    cache_lookup (invalidate_all_property_caches c (.error msg))
      "property_stats" = none := by
  have hsw : invalidate_all_property_caches c (.error msg)
      = cache_delete (cache_delete c "all_properties") "property_stats" := rfl
  have hmain := lookup_after_two_deletes c hav
  constructor
  · rw [hsw, hmain, if_neg (by decide), if_pos rfl]
  · rw [hsw, hmain, if_pos rfl]

/-- Witness for `sweep_survives_enumeration_failure`: a concrete populated
cache and a concrete enumeration error. -/
theorem sweep_survives_enumeration_failure_witness :
    cache_lookup (invalidate_all_property_caches
      ⟨[("all_properties", (CacheValue.props [sampleProp], 3600)),
        ("property_stats", (CacheValue.stats ⟨1, 100, 100, 100⟩, 1800))], true⟩
      (.error "connection refused")) "all_properties" = none :=
  (sweep_survives_enumeration_failure
    ⟨[("all_properties", (CacheValue.props [sampleProp], 3600)),
      ("property_stats", (CacheValue.stats ⟨1, 100, 100, 100⟩, 1800))], true⟩
    rfl "connection refused").1

end PropertyListings
